import Mathlib

/-
Verification of the travel-app-mcp booking engine and its React client.

The repository snapshot contains the React frontend (App.jsx / Home.jsx
variants) and the project documentation (replit.md); the Python backend
(backend/server.py, backend/models.py, backend/sheets_client.py) that
implements the Booking & Availability Consistency Engine is not part of the
snapshot.  The engine definitions below are therefore modelled from the
specification (sections 3-7 of spec.md), while the client-side definitions
are translated directly from the JSX sources.

Conventions of the shallow embedding:
- dates/instants are natural-number day indices;
- monetary amounts are natural numbers of cents;
- the Google-Sheets row store is a record of lists, one per table;
- every fallible operation returns the (possibly updated) store paired with
  an Except value, so that "the store is unchanged on failure" is a real
  statement about the returned store.
-/

namespace Travel

/-- Booking lifecycle status (spec section 4.3). -/
inductive BookingStatus where
  | pending
  | confirmed
  | cancelled
deriving DecidableEq, Repr

/-- Payment status (spec section 3). -/
inductive PaymentStatus where
  | captured
  | refunded
deriving DecidableEq, Repr

/-- Error taxonomy (spec section 7). -/
inductive Err where
  | InvalidSelection
  | PassengerRequired
  | ResourceUnavailable
  | AmountMismatch
  | NotFound
  | InvalidState
  | AllocationExhausted
  | StoreUnavailable
  | Unauthorized
deriving DecidableEq, Repr

/-- Flight reference data: fixed seat capacity and per-passenger base price. -/
structure Flight where
  id : Nat
  capacity : Nat
  basePrice : Nat
deriving DecidableEq, Repr

/-- Hotel room reference data (capacity is binary: one concurrent stay). -/
structure Room where
  id : Nat
  pricePerNight : Nat
deriving DecidableEq, Repr

/-- Rental car reference data (capacity is binary: one concurrent rental). -/
structure Car where
  id : Nat
  pricePerDay : Nat
deriving DecidableEq, Repr

/-- Passenger fields, as in the JSX passenger form (part_000 / part_002). -/
structure Passenger where
  first_name : String
  last_name : String
  gender : String
  dob : Nat
  passport_no : String
deriving DecidableEq, Repr

/-- FlightBooking row: parent booking, flight, date and passenger count. -/
structure FlightBooking where
  id : Nat
  bookingId : Nat
  flightId : Nat
  date : Nat
  paxCount : Nat
  price : Nat
deriving DecidableEq, Repr

/-- HotelBooking row with its half-open check-in/check-out span. -/
structure HotelBooking where
  id : Nat
  bookingId : Nat
  roomId : Nat
  checkIn : Nat
  checkOut : Nat
  price : Nat
deriving DecidableEq, Repr

/-- CarBooking row with its half-open pickup/dropoff span. -/
structure CarBooking where
  id : Nat
  bookingId : Nat
  carId : Nat
  pickup : Nat
  dropoff : Nat
  price : Nat
deriving DecidableEq, Repr

/-- Booking aggregate row.  The field everConfirmed is a ghost history flag:
it records whether the booking ever performed the pending-to-confirmed
transition, which the informal spec refers to as "previously confirmed"; it
is written only by processPayment and read only by the stated invariants. -/
structure Booking where
  id : Nat
  userId : Nat
  status : BookingStatus
  total : Nat
  everConfirmed : Bool
deriving DecidableEq, Repr

/-- Payment row (spec section 3). -/
structure Payment where
  id : Nat
  bookingId : Nat
  method : String
  amount : Nat
  status : PaymentStatus
deriving DecidableEq, Repr

/-- Passenger row persisted with a booking. -/
structure PassengerRow where
  id : Nat
  bookingId : Nat
  info : Passenger
deriving DecidableEq, Repr

/-- The row store: one list per Google-Sheets table, plus fresh-identifier
counters for the rows the orchestrator creates. -/
structure Store where
  flights : List Flight
  rooms : List Room
  cars : List Car
  bookings : List Booking
  flightBookings : List FlightBooking
  hotelBookings : List HotelBooking
  carBookings : List CarBooking
  passengerRows : List PassengerRow
  payments : List Payment
  nextBookingId : Nat
  nextPaymentId : Nat
  nextSubId : Nat
deriving DecidableEq, Repr

/-- Modelled from the spec (section 4.2): half-open interval overlap,
existing.start < requested.end AND requested.start < existing.end. -/
def overlaps (eStart eStop rStart rStop : Nat) : Bool :=
  decide (eStart < rStop) && decide (rStart < eStop)

/-- Load a booking row by identifier. -/
def lookupBooking (s : Store) (bid : Nat) : Option Booking :=
  s.bookings.find? (fun b => b.id == bid)

/-- Modelled from the spec (section 4.2): a sub-booking row participates in
availability only while its parent booking exists and is not cancelled. -/
def activeBooking (s : Store) (bid : Nat) : Bool :=
  match lookupBooking s bid with
  | some b => decide (b.status ≠ BookingStatus.cancelled)
  | none => false

/-- Modelled from the spec (section 4.2, backend server.py absent from the
snapshot): a room is available iff no non-cancelled HotelBooking for the same
room has a span overlapping the requested span. -/
def roomIsAvailable (s : Store) (roomId checkIn checkOut : Nat) : Bool :=
  s.hotelBookings.all (fun hb =>
    !(hb.roomId == roomId && activeBooking s hb.bookingId
        && overlaps hb.checkIn hb.checkOut checkIn checkOut))

/-- Modelled from the spec (section 4.2): car availability by date-span
overlap against non-cancelled CarBooking rows. -/
def carIsAvailable (s : Store) (carId pickup dropoff : Nat) : Bool :=
  s.carBookings.all (fun cb =>
    !(cb.carId == carId && activeBooking s cb.bookingId
        && overlaps cb.pickup cb.dropoff pickup dropoff))

/-- The FlightBooking rows that count against a flight's capacity: rows
referencing the flight whose parent booking is not cancelled. -/
def countedFlightRows (s : Store) (fid : Nat) : List FlightBooking :=
  s.flightBookings.filter (fun fb => fb.flightId == fid && activeBooking s fb.bookingId)

/-- Modelled from the spec (section 4.2): total passenger count across all
non-cancelled FlightBooking rows referencing the flight. -/
def countFlightPassengers (s : Store) (fid : Nat) : Nat :=
  ((countedFlightRows s fid).map (fun fb => fb.paxCount)).sum

/-- Fixed seat capacity of a flight (0 when the flight does not exist). -/
def flightCapacity (s : Store) (fid : Nat) : Nat :=
  match s.flights.find? (fun f => f.id == fid) with
  | some f => f.capacity
  | none => 0

/-- Modelled from the spec (section 4.2): remaining = fixed seat capacity
minus passengers across non-cancelled FlightBooking rows, as an integer. -/
def remainingCapacity (s : Store) (fid : Nat) : Int :=
  (flightCapacity s fid : Int) - (countFlightPassengers s fid : Int)

/-- Modelled from the spec (section 4.2): a flight is available iff the
remaining capacity is at least the requested passenger count. -/
def flightIsAvailable (s : Store) (fid paxCount : Nat) : Bool :=
  decide ((paxCount : Int) ≤ remainingCapacity s fid)

/-- Resource kinds handled by the Availability Calculator. -/
inductive ResourceKind where
  | flight
  | room
  | car
deriving DecidableEq, Repr

/-- A requested span: a passenger-seat count for flights, a half-open date
span for rooms and cars. -/
inductive RequestedSpan where
  | seats (count : Nat)
  | dates (startDay stopDay : Nat)
deriving DecidableEq, Repr

/-- Modelled from the spec (section 4.2): the Availability Calculator's
public isAvailable(resourceKind, resourceId, requestedSpan) contract. -/
def isAvailable (s : Store) (kind : ResourceKind) (rid : Nat) (span : RequestedSpan) : Bool :=
  match kind, span with
  | ResourceKind.flight, RequestedSpan.seats n => flightIsAvailable s rid n
  | ResourceKind.room, RequestedSpan.dates a b => roomIsAvailable s rid a b
  | ResourceKind.car, RequestedSpan.dates a b => carIsAvailable s rid a b
  | _, _ => false

/-- Flight selection inside a createBooking request. -/
structure FlightSel where
  flightId : Nat
  date : Nat
deriving DecidableEq, Repr

/-- Hotel-stay selection inside a createBooking request. -/
structure HotelSel where
  roomId : Nat
  checkIn : Nat
  checkOut : Nat
deriving DecidableEq, Repr

/-- Car-rental selection inside a createBooking request. -/
structure CarSel where
  carId : Nat
  pickup : Nat
  dropoff : Nat
deriving DecidableEq, Repr

/-- Selections argument of createBooking: zero-or-one of each resource kind. -/
structure Selections where
  flight : Option FlightSel
  hotel : Option HotelSel
  car : Option CarSel
deriving DecidableEq, Repr

/-- Per-passenger base price of a flight (0 when absent). -/
def flightPrice (s : Store) (fid : Nat) : Nat :=
  match s.flights.find? (fun f => f.id == fid) with
  | some f => f.basePrice
  | none => 0

/-- Price per night of a room (0 when absent). -/
def roomPrice (s : Store) (rid : Nat) : Nat :=
  match s.rooms.find? (fun r => r.id == rid) with
  | some r => r.pricePerNight
  | none => 0

/-- Price per day of a car (0 when absent). -/
def carPrice (s : Store) (cid : Nat) : Nat :=
  match s.cars.find? (fun c => c.id == cid) with
  | some c => c.pricePerDay
  | none => 0

/-- Modelled from the spec (sections 3 and 4.4): line-item price of each
selected resource, fixed at booking time. -/
def lineTotal (s : Store) (sel : Selections) (paxCount : Nat) : Nat :=
  (match sel.flight with
    | some f => flightPrice s f.flightId * paxCount
    | none => 0)
  + (match sel.hotel with
    | some h => roomPrice s h.roomId * (h.checkOut - h.checkIn)
    | none => 0)
  + (match sel.car with
    | some c => carPrice s c.carId * (c.dropoff - c.pickup)
    | none => 0)

/-- Modelled from the spec (section 4.4): a positive availability check for
every included resource. -/
def selectionsAvailable (s : Store) (sel : Selections) (paxCount : Nat) : Bool :=
  (match sel.flight with
    | some f => flightIsAvailable s f.flightId paxCount
    | none => true)
  && (match sel.hotel with
    | some h => roomIsAvailable s h.roomId h.checkIn h.checkOut
    | none => true)
  && (match sel.car with
    | some c => carIsAvailable s c.carId c.pickup c.dropoff
    | none => true)

/-- The FlightBooking rows created for a selection. -/
def flightRowsFor (s : Store) (sel : Selections) (bid paxCount : Nat) : List FlightBooking :=
  match sel.flight with
  | some f =>
      [{ id := s.nextSubId, bookingId := bid, flightId := f.flightId, date := f.date,
         paxCount := paxCount, price := flightPrice s f.flightId * paxCount }]
  | none => []

/-- The HotelBooking rows created for a selection. -/
def hotelRowsFor (s : Store) (sel : Selections) (bid : Nat) : List HotelBooking :=
  match sel.hotel with
  | some h =>
      [{ id := s.nextSubId + 1, bookingId := bid, roomId := h.roomId, checkIn := h.checkIn,
         checkOut := h.checkOut, price := roomPrice s h.roomId * (h.checkOut - h.checkIn) }]
  | none => []

/-- The CarBooking rows created for a selection. -/
def carRowsFor (s : Store) (sel : Selections) (bid : Nat) : List CarBooking :=
  match sel.car with
  | some c =>
      [{ id := s.nextSubId + 2, bookingId := bid, carId := c.carId, pickup := c.pickup,
         dropoff := c.dropoff, price := carPrice s c.carId * (c.dropoff - c.pickup) }]
  | none => []

/-- Modelled from the spec (section 4.4, backend server.py absent from the
snapshot): createBooking(userId, selections, passengers).  Validates the
selection shape, checks availability for every selected resource, computes
the total price and persists all rows; validation failures happen before any
write and return the store unchanged. -/
def createBooking (s : Store) (userId : Nat) (sel : Selections) (pax : List Passenger) :
    Store × Except Err Booking :=
  if sel.flight.isNone && sel.hotel.isNone && sel.car.isNone then
    (s, Except.error Err.InvalidSelection)
  else if sel.flight.isSome && pax.isEmpty then
    (s, Except.error Err.PassengerRequired)
  else if !selectionsAvailable s sel pax.length then
    (s, Except.error Err.ResourceUnavailable)
  else
    let bid := s.nextBookingId
    let b : Booking :=
      { id := bid, userId := userId, status := BookingStatus.pending,
        total := lineTotal s sel pax.length, everConfirmed := false }
    ({ s with
        bookings := s.bookings ++ [b],
        flightBookings := s.flightBookings ++ flightRowsFor s sel bid pax.length,
        hotelBookings := s.hotelBookings ++ hotelRowsFor s sel bid,
        carBookings := s.carBookings ++ carRowsFor s sel bid,
        passengerRows := s.passengerRows
          ++ (pax.enum.map (fun pi =>
                { id := s.nextSubId + 3 + pi.1, bookingId := bid, info := pi.2 })),
        nextBookingId := bid + 1,
        nextSubId := s.nextSubId + 3 + pax.length },
      Except.ok b)

/-- Modelled from the spec (section 4.2): room availability ignoring the
sub-bookings of one booking, used by the payment-time re-check so a pending
booking is not blocked by its own rows. -/
def roomIsAvailableExcl (s : Store) (exclBid roomId checkIn checkOut : Nat) : Bool :=
  s.hotelBookings.all (fun hb =>
    !(!(hb.bookingId == exclBid) && hb.roomId == roomId && activeBooking s hb.bookingId
        && overlaps hb.checkIn hb.checkOut checkIn checkOut))

/-- Modelled from the spec (section 4.2): car availability ignoring one
booking's own rows. -/
def carIsAvailableExcl (s : Store) (exclBid carId pickup dropoff : Nat) : Bool :=
  s.carBookings.all (fun cb =>
    !(!(cb.bookingId == exclBid) && cb.carId == carId && activeBooking s cb.bookingId
        && overlaps cb.pickup cb.dropoff pickup dropoff))

/-- Modelled from the spec (section 4.2): flight availability counting only
rows of other bookings. -/
def flightIsAvailableExcl (s : Store) (exclBid fid paxCount : Nat) : Bool :=
  decide ((paxCount : Int) ≤ (flightCapacity s fid : Int)
    - (((s.flightBookings.filter (fun fb =>
          !(fb.bookingId == exclBid) && fb.flightId == fid
            && activeBooking s fb.bookingId)).map (fun fb => fb.paxCount)).sum : Int))

/-- Modelled from the spec (section 5): the authoritative payment-time
availability re-check over every sub-booking of the booking. -/
def recheckAvailable (s : Store) (bid : Nat) : Bool :=
  (s.flightBookings.filter (fun fb => fb.bookingId == bid)).all
      (fun fb => flightIsAvailableExcl s bid fb.flightId fb.paxCount)
  && (s.hotelBookings.filter (fun hb => hb.bookingId == bid)).all
      (fun hb => roomIsAvailableExcl s bid hb.roomId hb.checkIn hb.checkOut)
  && (s.carBookings.filter (fun cb => cb.bookingId == bid)).all
      (fun cb => carIsAvailableExcl s bid cb.carId cb.pickup cb.dropoff)

/-- The pending-to-confirmed update applied to the booking row with the
given identifier. -/
def confirmUpd (bid : Nat) (x : Booking) : Booking :=
  if x.id = bid then { x with status := BookingStatus.confirmed, everConfirmed := true } else x

/-- The to-cancelled update applied to the booking row with the given
identifier. -/
def cancelUpd (bid : Nat) (x : Booking) : Booking :=
  if x.id = bid then { x with status := BookingStatus.cancelled } else x

/-- The refund update applied to the payments of the given booking. -/
def refundUpd (bid : Nat) (p : Payment) : Payment :=
  if p.bookingId = bid then { p with status := PaymentStatus.refunded } else p

/-- Modelled from the spec (section 4.4, backend server.py absent from the
snapshot): processPayment(bookingId, method, amount).  NotFound if absent,
InvalidState if not pending, AmountMismatch unless the amount equals the
total exactly, ResourceUnavailable if the re-check fails; otherwise the
pending-to-confirmed transition with one captured Payment. -/
def processPayment (s : Store) (bid : Nat) (method : String) (amount : Nat) :
    Store × Except Err (Booking × Payment) :=
  match lookupBooking s bid with
  | none => (s, Except.error Err.NotFound)
  | some b =>
    if b.status ≠ BookingStatus.pending then
      (s, Except.error Err.InvalidState)
    else if amount ≠ b.total then
      (s, Except.error Err.AmountMismatch)
    else if !recheckAvailable s bid then
      (s, Except.error Err.ResourceUnavailable)
    else
      let b' : Booking := { b with status := BookingStatus.confirmed, everConfirmed := true }
      let p : Payment :=
        { id := s.nextPaymentId, bookingId := bid, method := method,
          amount := amount, status := PaymentStatus.captured }
      ({ s with
          bookings := s.bookings.map (confirmUpd bid),
          payments := s.payments ++ [p],
          nextPaymentId := s.nextPaymentId + 1 },
        Except.ok (b', p))

/-- Modelled from the spec (sections 4.3, 4.4 and 5, backend server.py absent
from the snapshot): cancelBooking(bookingId).  NotFound if absent; a second
cancel of the same booking is reported as InvalidState (sections 5 and 8;
section 4.4 words the already-cancelled case as NotFound, the reported-kind
reading of sections 5, 6 and 8 is followed here); a confirmed booking's
payment is marked refunded. -/
def cancelBooking (s : Store) (bid : Nat) : Store × Except Err Booking :=
  match lookupBooking s bid with
  | none => (s, Except.error Err.NotFound)
  | some b =>
    match b.status with
    | BookingStatus.cancelled => (s, Except.error Err.InvalidState)
    | BookingStatus.pending =>
        ({ s with bookings := s.bookings.map (cancelUpd bid) },
          Except.ok { b with status := BookingStatus.cancelled })
    | BookingStatus.confirmed =>
        ({ s with
            bookings := s.bookings.map (cancelUpd bid),
            payments := s.payments.map (refundUpd bid) },
          Except.ok { b with status := BookingStatus.cancelled })

/-- The payments owned by a booking. -/
def paymentsOf (s : Store) (bid : Nat) : List Payment :=
  s.payments.filter (fun p => p.bookingId == bid)

/-- One engine transition: any orchestrator call (a failed call returns the
store unchanged, so failures are harmless self-loops). -/
inductive SysStep : Store → Store → Prop where
  | create (u : Nat) (sel : Selections) (pax : List Passenger) (s : Store) :
      SysStep s (createBooking s u sel pax).1
  | pay (bid : Nat) (m : String) (amt : Nat) (s : Store) :
      SysStep s (processPayment s bid m amt).1
  | cancel (bid : Nat) (s : Store) :
      SysStep s (cancelBooking s bid).1

/-- The initial store: seeded reference data, no booking rows. -/
def initStore (fl : List Flight) (rs : List Room) (cs : List Car) : Store :=
  { flights := fl, rooms := rs, cars := cs,
    bookings := [], flightBookings := [], hotelBookings := [], carBookings := [],
    passengerRows := [], payments := [],
    nextBookingId := 1, nextPaymentId := 1, nextSubId := 1 }

/-- A store reachable from seeded reference data by engine operations. -/
def Reachable (fl : List Flight) (rs : List Room) (cs : List Car) (s : Store) : Prop :=
  Relation.ReflTransGen SysStep (initStore fl rs cs) s

/-- Payment-conservation clauses for one booking, over its payment list
(spec sections 3 and 8). -/
def paymentClauses (l : List Payment) (b : Booking) : Prop :=
  (b.status = BookingStatus.confirmed ↔
    ∃ p, l = [p] ∧ p.status = PaymentStatus.captured ∧ p.amount = b.total)
  ∧ (b.status = BookingStatus.cancelled → b.everConfirmed = true →
      ∃ p, l = [p] ∧ p.status = PaymentStatus.refunded ∧ p.amount = b.total)
  ∧ (b.status = BookingStatus.pending → l = [])
  ∧ (b.status = BookingStatus.cancelled → b.everConfirmed = false → l = [])
  ∧ (b.status = BookingStatus.confirmed → b.everConfirmed = true)
  ∧ (b.status = BookingStatus.pending → b.everConfirmed = false)

/-- Payment conservation for one booking inside a store. -/
def GoodBooking (s : Store) (b : Booking) : Prop :=
  paymentClauses (paymentsOf s b.id) b

/-- The store invariant: identifier bookkeeping plus payment conservation
for every booking. -/
def Inv (s : Store) : Prop :=
  (s.bookings.map (fun b => b.id)).Nodup
  ∧ (∀ b ∈ s.bookings, b.id < s.nextBookingId)
  ∧ (∀ p ∈ s.payments, p.bookingId < s.nextBookingId)
  ∧ (∀ fb ∈ s.flightBookings, fb.bookingId < s.nextBookingId)
  ∧ (∀ hb ∈ s.hotelBookings, hb.bookingId < s.nextBookingId)
  ∧ (∀ cb ∈ s.carBookings, cb.bookingId < s.nextBookingId)
  ∧ (∀ b ∈ s.bookings, GoodBooking s b)

theorem lookupBooking_mem {s : Store} {bid : Nat} {b : Booking}
    (h : lookupBooking s bid = some b) : b ∈ s.bookings :=
  List.mem_of_find?_eq_some h

theorem lookupBooking_id {s : Store} {bid : Nat} {b : Booking}
    (h : lookupBooking s bid = some b) : b.id = bid := by
  have := List.find?_some h
  simpa using this

theorem mem_paymentsOf {s : Store} {bid : Nat} {p : Payment}
    (h : p ∈ paymentsOf s bid) : p ∈ s.payments ∧ p.bookingId = bid := by
  unfold paymentsOf at h
  have := List.mem_filter.1 h
  exact ⟨this.1, by simpa using this.2⟩

theorem flightRowsFor_bookingId {s : Store} {sel : Selections} {bid n : Nat}
    {fb : FlightBooking} (h : fb ∈ flightRowsFor s sel bid n) : fb.bookingId = bid := by
  unfold flightRowsFor at h
  cases hf : sel.flight with
  | none => simp [hf] at h
  | some f => simp [hf] at h; simp [h]

theorem hotelRowsFor_bookingId {s : Store} {sel : Selections} {bid : Nat}
    {hb : HotelBooking} (h : hb ∈ hotelRowsFor s sel bid) : hb.bookingId = bid := by
  unfold hotelRowsFor at h
  cases hh : sel.hotel with
  | none => simp [hh] at h
  | some x => simp [hh] at h; simp [h]

theorem carRowsFor_bookingId {s : Store} {sel : Selections} {bid : Nat}
    {cb : CarBooking} (h : cb ∈ carRowsFor s sel bid) : cb.bookingId = bid := by
  unfold carRowsFor at h
  cases hc : sel.car with
  | none => simp [hc] at h
  | some x => simp [hc] at h; simp [h]

theorem inv_createBooking (s : Store) (u : Nat) (sel : Selections) (pax : List Passenger)
    (h : Inv s) : Inv (createBooking s u sel pax).1 := by
  obtain ⟨hnd, hbk, hpay, hfb, hhb, hcb, hgood⟩ := h
  unfold createBooking
  by_cases h1 : sel.flight.isNone && sel.hotel.isNone && sel.car.isNone
  · simp only [h1, if_true]
    exact ⟨hnd, hbk, hpay, hfb, hhb, hcb, hgood⟩
  · by_cases h2 : sel.flight.isSome && pax.isEmpty
    · simp only [h1, h2, if_true, if_false, Bool.false_eq_true]
      exact ⟨hnd, hbk, hpay, hfb, hhb, hcb, hgood⟩
    · cases h3 : selectionsAvailable s sel pax.length with
      | false =>
        simp only [h1, h2, h3, Bool.not_false, if_true, if_false, Bool.false_eq_true]
        exact ⟨hnd, hbk, hpay, hfb, hhb, hcb, hgood⟩
      | true =>
        simp only [h1, h2, h3, Bool.not_true, if_false, Bool.false_eq_true]
        refine ⟨?_, ?_, ?_, ?_, ?_, ?_, ?_⟩
        · simp only [List.map_append, List.map_cons, List.map_nil]
          rw [List.nodup_append]
          refine ⟨hnd, List.nodup_singleton _, ?_⟩
          intro a ha hmem
          obtain ⟨x, hx, hxa⟩ := List.mem_map.1 ha
          have hlt := hbk x hx
          simp at hmem
          omega
        · intro b hb
          rcases List.mem_append.1 hb with hOld | hNew
          · exact Nat.lt_succ_of_lt (hbk b hOld)
          · simp at hNew
            simp [hNew]
        · intro p hp
          exact Nat.lt_succ_of_lt (hpay p hp)
        · intro fb hfb'
          rcases List.mem_append.1 hfb' with hOld | hNew
          · exact Nat.lt_succ_of_lt (hfb fb hOld)
          · rw [flightRowsFor_bookingId hNew]
            simp
        · intro hb hhb'
          rcases List.mem_append.1 hhb' with hOld | hNew
          · exact Nat.lt_succ_of_lt (hhb hb hOld)
          · rw [hotelRowsFor_bookingId hNew]
            simp
        · intro cb hcb'
          rcases List.mem_append.1 hcb' with hOld | hNew
          · exact Nat.lt_succ_of_lt (hcb cb hOld)
          · rw [carRowsFor_bookingId hNew]
            simp
        · intro b hb
          rcases List.mem_append.1 hb with hOld | hNew
          · exact hgood b hOld
          · simp at hNew
            subst hNew
            have hempty : List.filter (fun p => p.bookingId == s.nextBookingId) s.payments = [] := by
              rw [List.filter_eq_nil_iff]
              intro p hp
              have := hpay p hp
              simp
              omega
            simp [GoodBooking, paymentClauses, paymentsOf, hempty]

theorem confirmUpd_id (bid : Nat) (x : Booking) : (confirmUpd bid x).id = x.id := by
  unfold confirmUpd
  split <;> rfl

theorem cancelUpd_id (bid : Nat) (x : Booking) : (cancelUpd bid x).id = x.id := by
  unfold cancelUpd
  split <;> rfl

theorem refundUpd_bookingId (bid : Nat) (p : Payment) :
    (refundUpd bid p).bookingId = p.bookingId := by
  unfold refundUpd
  split <;> rfl

theorem map_id_confirmUpd (bid : Nat) (l : List Booking) :
    (l.map (confirmUpd bid)).map (fun b => b.id) = l.map (fun b => b.id) := by
  rw [List.map_map]
  apply List.map_congr_left
  intro a _
  simp [Function.comp, confirmUpd_id]

theorem map_id_cancelUpd (bid : Nat) (l : List Booking) :
    (l.map (cancelUpd bid)).map (fun b => b.id) = l.map (fun b => b.id) := by
  rw [List.map_map]
  apply List.map_congr_left
  intro a _
  simp [Function.comp, cancelUpd_id]

theorem filter_refundUpd (ps : List Payment) (bid y : Nat) :
    List.filter (fun p => p.bookingId == y) (ps.map (refundUpd bid))
      = (List.filter (fun p => p.bookingId == y) ps).map (refundUpd bid) := by
  rw [List.filter_map]
  congr 1
  apply List.filter_congr
  intro p _
  simp [Function.comp, refundUpd_bookingId]

theorem inv_processPayment (s : Store) (bid : Nat) (m : String) (amt : Nat)
    (h : Inv s) : Inv (processPayment s bid m amt).1 := by
  obtain ⟨hnd, hbk, hpay, hfb, hhb, hcb, hgood⟩ := h
  unfold processPayment
  cases hl : lookupBooking s bid with
  | none => exact ⟨hnd, hbk, hpay, hfb, hhb, hcb, hgood⟩
  | some b =>
    by_cases hst : b.status = BookingStatus.pending
    · by_cases hamt : amt = b.total
      · subst hamt
        cases hra : recheckAvailable s bid with
        | false =>
          simp only [hst, hra]
          simp
          exact ⟨hnd, hbk, hpay, hfb, hhb, hcb, hgood⟩
        | true =>
          have hbmem := lookupBooking_mem hl
          have hbid := lookupBooking_id hl
          simp only [hst, hra]
          simp
          refine ⟨?_, ?_, ?_, hfb, hhb, hcb, ?_⟩
          · rw [map_id_confirmUpd]
            exact hnd
          · intro b' hb'
            obtain ⟨x, hx, hxe⟩ := List.mem_map.1 hb'
            rw [← hxe, confirmUpd_id]
            exact hbk x hx
          · intro p hp
            rcases List.mem_append.1 hp with hOld | hNew
            · exact hpay p hOld
            · simp at hNew
              rw [hNew, ← hbid]
              exact hbk b hbmem
          · intro b' hb'
            obtain ⟨x, hx, hxe⟩ := List.mem_map.1 hb'
            by_cases hxid : x.id = bid
            · have hxb : x = b := by
                apply List.inj_on_of_nodup_map hnd hx hbmem
                rw [hxid, hbid]
              subst hxb
              have hconf : confirmUpd bid x
                  = { x with status := BookingStatus.confirmed, everConfirmed := true } := by
                unfold confirmUpd
                rw [if_pos hxid]
              have hempty : paymentsOf s x.id = [] := by
                have := hgood x hx
                exact this.2.2.1 hst
              subst hxe
              unfold GoodBooking
              rw [hconf]
              unfold paymentClauses
              simp only [paymentsOf] at hempty ⊢
              rw [hxid] at hempty
              simp only [List.filter_append, hxid]
              rw [hempty]
              simp
            · have hid : confirmUpd bid x = x := by
                unfold confirmUpd
                rw [if_neg hxid]
              subst hxe
              rw [hid]
              have hsame : List.filter (fun (p : Payment) => p.bookingId == x.id) (s.payments
                  ++ [{ id := s.nextPaymentId, bookingId := bid, method := m,
                        amount := b.total, status := PaymentStatus.captured }])
                  = List.filter (fun (p : Payment) => p.bookingId == x.id) s.payments := by
                rw [List.filter_append]
                have hnil : List.filter (fun (p : Payment) => p.bookingId == x.id)
                    [{ id := s.nextPaymentId, bookingId := bid, method := m,
                       amount := b.total, status := PaymentStatus.captured }] = [] := by
                  simp
                  omega
                rw [hnil, List.append_nil]
              unfold GoodBooking
              simp only [paymentsOf]
              rw [hsame]
              exact hgood x hx
      · simp only [hst]
        simp [hamt]
        exact ⟨hnd, hbk, hpay, hfb, hhb, hcb, hgood⟩
    · simp [hst]
      exact ⟨hnd, hbk, hpay, hfb, hhb, hcb, hgood⟩

theorem inv_cancelBooking (s : Store) (bid : Nat) (h : Inv s) :
    Inv (cancelBooking s bid).1 := by
  obtain ⟨hnd, hbk, hpay, hfb, hhb, hcb, hgood⟩ := h
  unfold cancelBooking
  split
  next => exact ⟨hnd, hbk, hpay, hfb, hhb, hcb, hgood⟩
  next b hl =>
    have hbmem := lookupBooking_mem hl
    have hbid := lookupBooking_id hl
    split
    next hst => exact ⟨hnd, hbk, hpay, hfb, hhb, hcb, hgood⟩
    next hst =>
      refine ⟨?_, ?_, hpay, hfb, hhb, hcb, ?_⟩
      · rw [map_id_cancelUpd]
        exact hnd
      · intro b' hb'
        obtain ⟨x, hx, hxe⟩ := List.mem_map.1 hb'
        rw [← hxe, cancelUpd_id]
        exact hbk x hx
      · intro b' hb'
        obtain ⟨x, hx, hxe⟩ := List.mem_map.1 hb'
        by_cases hxid : x.id = bid
        · have hxb : x = b := by
            apply List.inj_on_of_nodup_map hnd hx hbmem
            rw [hxid, hbid]
          subst hxb
          have hcanc : cancelUpd bid x = { x with status := BookingStatus.cancelled } := by
            unfold cancelUpd
            rw [if_pos hxid]
          have hempty : paymentsOf s x.id = [] := (hgood x hx).2.2.1 hst
          have hev : x.everConfirmed = false := (hgood x hx).2.2.2.2.2 hst
          subst hxe
          unfold GoodBooking
          rw [hcanc]
          unfold paymentClauses
          simp only [paymentsOf] at hempty ⊢
          rw [hempty]
          simp [hev]
        · have hid : cancelUpd bid x = x := by
            unfold cancelUpd
            rw [if_neg hxid]
          subst hxe
          rw [hid]
          exact hgood x hx
    next hst =>
      refine ⟨?_, ?_, ?_, hfb, hhb, hcb, ?_⟩
      · rw [map_id_cancelUpd]
        exact hnd
      · intro b' hb'
        obtain ⟨x, hx, hxe⟩ := List.mem_map.1 hb'
        rw [← hxe, cancelUpd_id]
        exact hbk x hx
      · intro p hp
        obtain ⟨q, hq, hqe⟩ := List.mem_map.1 hp
        rw [← hqe, refundUpd_bookingId]
        exact hpay q hq
      · intro b' hb'
        obtain ⟨x, hx, hxe⟩ := List.mem_map.1 hb'
        by_cases hxid : x.id = bid
        · have hxb : x = b := by
            apply List.inj_on_of_nodup_map hnd hx hbmem
            rw [hxid, hbid]
          subst hxb
          have hcanc : cancelUpd bid x = { x with status := BookingStatus.cancelled } := by
            unfold cancelUpd
            rw [if_pos hxid]
          have hev : x.everConfirmed = true := (hgood x hx).2.2.2.2.1 hst
          obtain ⟨p, hpl, hpc, hpa⟩ := (hgood x hx).1.1 hst
          have hpbid : p.bookingId = x.id := by
            have hmem : p ∈ paymentsOf s x.id := by
              rw [hpl]
              exact List.mem_singleton.2 rfl
            exact (mem_paymentsOf hmem).2
          have hr : refundUpd bid p = { p with status := PaymentStatus.refunded } := by
            unfold refundUpd
            rw [if_pos (by rw [hpbid, hxid])]
          subst hxe
          unfold GoodBooking
          rw [hcanc]
          unfold paymentClauses
          simp only [paymentsOf] at hpl ⊢
          rw [filter_refundUpd, hpl]
          simp [hr, hev, hpa, hpc]
        · have hid : cancelUpd bid x = x := by
            unfold cancelUpd
            rw [if_neg hxid]
          subst hxe
          rw [hid]
          have hfix : ∀ q ∈ List.filter (fun (p : Payment) => p.bookingId == x.id) s.payments,
              refundUpd bid q = q := by
            intro q hq
            have hqb : q.bookingId = x.id := by
              simpa using List.of_mem_filter hq
            unfold refundUpd
            rw [if_neg]
            rw [hqb]
            exact hxid
          have hsame : List.filter (fun (p : Payment) => p.bookingId == x.id)
                (s.payments.map (refundUpd bid))
              = List.filter (fun (p : Payment) => p.bookingId == x.id) s.payments := by
            rw [filter_refundUpd]
            rw [List.map_congr_left hfix]
            exact List.map_id _
          unfold GoodBooking
          simp only [paymentsOf]
          rw [hsame]
          exact hgood x hx

theorem inv_step {s s' : Store} (hstep : SysStep s s') (h : Inv s) : Inv s' := by
  cases hstep with
  | create u sel pax s => exact inv_createBooking s u sel pax h
  | pay bid m amt s => exact inv_processPayment s bid m amt h
  | cancel bid s => exact inv_cancelBooking s bid h

theorem inv_init (fl : List Flight) (rs : List Room) (cs : List Car) :
    Inv (initStore fl rs cs) := by
  unfold Inv initStore
  simp

theorem inv_reachable {fl : List Flight} {rs : List Room} {cs : List Car} {s : Store}
    (h : Reachable fl rs cs s) : Inv s := by
  unfold Reachable at h
  induction h with
  | refl => exact inv_init fl rs cs
  | tail hsteps hstep ih => exact inv_step hstep ih

theorem processPayment_error_unchanged (s : Store) (bid : Nat) (m : String) (amt : Nat) :
    ∀ e, (processPayment s bid m amt).2 = Except.error e →
      (processPayment s bid m amt).1 = s := by
  intro e he
  unfold processPayment at he ⊢
  cases hl : lookupBooking s bid with
  | none =>
    rfl
  | some b =>
    rw [hl] at he
    by_cases hst : b.status = BookingStatus.pending
    · by_cases hamt : amt = b.total
      · cases hra : recheckAvailable s bid with
        | false => simp [hst, hamt, hra]
        | true => simp [hst, hamt, hra] at he
      · simp [hst, hamt]
    · simp [hst]

theorem createBooking_error_unchanged (s : Store) (u : Nat) (sel : Selections)
    (pax : List Passenger) :
    ∀ e, (createBooking s u sel pax).2 = Except.error e →
      (createBooking s u sel pax).1 = s := by
  intro e he
  unfold createBooking at he ⊢
  by_cases h1 : sel.flight.isNone && sel.hotel.isNone && sel.car.isNone
  · simp [h1]
  · by_cases h2 : sel.flight.isSome && pax.isEmpty
    · simp [h1, h2]
    · cases h3 : selectionsAvailable s sel pax.length with
      | false => simp [h1, h2, h3]
      | true => simp [h1, h2, h3] at he

/-- C1: for every room or car availability query, isAvailable returns true
iff no existing non-cancelled HotelBooking/CarBooking for the same resource
has a span overlapping the requested span under half-open semantics
(existing.start < requested.end AND requested.start < existing.end); in
particular a span starting exactly at an existing span's end does not
overlap. -/
theorem isAvailable_iff_no_overlap (s : Store) (rid a b : Nat) :
    (isAvailable s ResourceKind.room rid (RequestedSpan.dates a b) = true ↔
      ∀ hb ∈ s.hotelBookings, hb.roomId = rid → activeBooking s hb.bookingId = true →
        ¬(hb.checkIn < b ∧ a < hb.checkOut))
    ∧ (isAvailable s ResourceKind.car rid (RequestedSpan.dates a b) = true ↔
      ∀ cb ∈ s.carBookings, cb.carId = rid → activeBooking s cb.bookingId = true →
        ¬(cb.pickup < b ∧ a < cb.dropoff))
    ∧ (∀ eStart rStop, overlaps eStart a a rStop = false) := by
  refine ⟨?_, ?_, ?_⟩
  · unfold isAvailable roomIsAvailable
    rw [List.all_eq_true]
    constructor
    · intro h hb hmem hrid hact hov
      have h2 := h hb hmem
      rw [hrid, hact] at h2
      simp [overlaps] at h2
      omega
    · intro h hb hmem
      by_cases hrid : hb.roomId = rid
      · by_cases hact : activeBooking s hb.bookingId = true
        · have h2 := h hb hmem hrid hact
          simp [overlaps, hrid, hact]
          omega
        · simp [overlaps, hrid]
          simp at hact
          tauto
      · simp [overlaps]
        tauto
  · unfold isAvailable carIsAvailable
    rw [List.all_eq_true]
    constructor
    · intro h cb hmem hrid hact hov
      have h2 := h cb hmem
      rw [hrid, hact] at h2
      simp [overlaps] at h2
      omega
    · intro h cb hmem
      by_cases hrid : cb.carId = rid
      · by_cases hact : activeBooking s cb.bookingId = true
        · have h2 := h cb hmem hrid hact
          simp [overlaps, hrid, hact]
          omega
        · simp [overlaps, hrid]
          simp at hact
          tauto
      · simp [overlaps]
        tauto
  · intro eStart rStop
    unfold overlaps
    simp

/-- Scenario store for the room-overlap witnesses: room 1 carries one
non-cancelled HotelBooking for days 1 to 3 (half-open). -/
def demoRoomStore : Store :=
  { initStore [] [{ id := 1, pricePerNight := 50 }] [] with
    bookings := [{ id := 1, userId := 1, status := BookingStatus.pending,
                   total := 100, everConfirmed := false }],
    hotelBookings := [{ id := 1, bookingId := 1, roomId := 1, checkIn := 1,
                        checkOut := 3, price := 100 }],
    nextBookingId := 2, nextSubId := 2 }

theorem isAvailable_iff_no_overlap_witness :
    isAvailable demoRoomStore ResourceKind.room 1 (RequestedSpan.dates 3 5) = true
    ∧ isAvailable demoRoomStore ResourceKind.room 1 (RequestedSpan.dates 2 4) = false :=
  ⟨(isAvailable_iff_no_overlap demoRoomStore 1 3 5).1.mpr (by decide), by decide⟩

/-- C2: remainingCapacity equals the fixed seat capacity minus the total
passenger count over non-cancelled FlightBooking rows for the flight,
isAvailable holds iff that remainder is at least the requested passenger
count, and a row whose parent booking is cancelled contributes nothing to
the count. -/
theorem flight_remaining_contract (s : Store) (fid n : Nat) :
    (remainingCapacity s fid
      = (flightCapacity s fid : Int)
        - ((((s.flightBookings.filter (fun fb => fb.flightId == fid
              && activeBooking s fb.bookingId)).map (fun fb => fb.paxCount)).sum : Nat) : Int))
    ∧ (isAvailable s ResourceKind.flight fid (RequestedSpan.seats n) = true ↔
        (n : Int) ≤ remainingCapacity s fid)
    ∧ (∀ fb ∈ s.flightBookings, ∀ bk, lookupBooking s fb.bookingId = some bk →
        bk.status = BookingStatus.cancelled → fb ∉ countedFlightRows s fid) := by
  refine ⟨rfl, ?_, ?_⟩
  · unfold isAvailable flightIsAvailable
    simp
  · intro fb _ bk hlk hcanc hmem
    have hpred := List.of_mem_filter hmem
    have hact : activeBooking s fb.bookingId = true := by
      simp at hpred
      exact hpred.2
    unfold activeBooking at hact
    rw [hlk] at hact
    simp [hcanc] at hact

/-- Scenario store for the flight-capacity witness: flight 5 with 10 seats,
one cancelled booking holding 4 passengers and one confirmed booking holding
3 passengers. -/
def demoFlightStore : Store :=
  { initStore [{ id := 5, capacity := 10, basePrice := 100 }] [] [] with
    bookings := [{ id := 1, userId := 1, status := BookingStatus.cancelled,
                   total := 0, everConfirmed := false },
                 { id := 2, userId := 1, status := BookingStatus.confirmed,
                   total := 0, everConfirmed := true }],
    flightBookings := [{ id := 1, bookingId := 1, flightId := 5, date := 0,
                         paxCount := 4, price := 0 },
                       { id := 2, bookingId := 2, flightId := 5, date := 0,
                         paxCount := 3, price := 0 }],
    nextBookingId := 3, nextSubId := 3 }

theorem flight_remaining_contract_witness :
    remainingCapacity demoFlightStore 5 = 7
    ∧ isAvailable demoFlightStore ResourceKind.flight 5 (RequestedSpan.seats 7) = true
    ∧ ({ id := 1, bookingId := 1, flightId := 5, date := 0, paxCount := 4,
         price := 0 } : FlightBooking) ∉ countedFlightRows demoFlightStore 5 :=
  ⟨by decide,
   (flight_remaining_contract demoFlightStore 5 7).2.1.mpr (by decide),
   (flight_remaining_contract demoFlightStore 5 7).2.2
     { id := 1, bookingId := 1, flightId := 5, date := 0, paxCount := 4, price := 0 }
     (by decide)
     { id := 1, userId := 1, status := BookingStatus.cancelled, total := 0,
       everConfirmed := false }
     (by decide) (by decide)⟩

theorem find?_map_confirmUpd (l : List Booking) (bid : Nat) :
    List.find? (fun x => x.id == bid) (l.map (confirmUpd bid))
      = Option.map (confirmUpd bid) (List.find? (fun x => x.id == bid) l) := by
  rw [List.find?_map]
  have hp : ((fun (x : Booking) => x.id == bid) ∘ confirmUpd bid)
      = (fun (x : Booking) => x.id == bid) := by
    funext x
    simp [Function.comp, confirmUpd_id]
  rw [hp]

theorem find?_map_cancelUpd (l : List Booking) (bid : Nat) :
    List.find? (fun x => x.id == bid) (l.map (cancelUpd bid))
      = Option.map (cancelUpd bid) (List.find? (fun x => x.id == bid) l) := by
  rw [List.find?_map]
  have hp : ((fun (x : Booking) => x.id == bid) ∘ cancelUpd bid)
      = (fun (x : Booking) => x.id == bid) := by
    funext x
    simp [Function.comp, cancelUpd_id]
  rw [hp]

/-- C3: processPayment(bookingId, method, amount) fails with NotFound when
the booking is absent, InvalidState when it is not pending, AmountMismatch
when the amount differs from the booking's total (exact equality required),
ResourceUnavailable when the availability re-check fails; every failure
leaves the store (hence the booking's status) unchanged, and success
performs the pending-to-confirmed transition and returns the booking with
its captured Payment. -/
theorem processPayment_contract (s : Store) (bid : Nat) (m : String) (amt : Nat) :
    (lookupBooking s bid = none →
      processPayment s bid m amt = (s, Except.error Err.NotFound))
    ∧ (∀ b, lookupBooking s bid = some b → b.status ≠ BookingStatus.pending →
      processPayment s bid m amt = (s, Except.error Err.InvalidState))
    ∧ (∀ b, lookupBooking s bid = some b → b.status = BookingStatus.pending →
        amt ≠ b.total →
      processPayment s bid m amt = (s, Except.error Err.AmountMismatch))
    ∧ (∀ b, lookupBooking s bid = some b → b.status = BookingStatus.pending →
        amt = b.total → recheckAvailable s bid = false →
      processPayment s bid m amt = (s, Except.error Err.ResourceUnavailable))
    ∧ (∀ e, (processPayment s bid m amt).2 = Except.error e →
        (processPayment s bid m amt).1 = s)
    ∧ (∀ b, lookupBooking s bid = some b → b.status = BookingStatus.pending →
        amt = b.total → recheckAvailable s bid = true →
      (processPayment s bid m amt).2
          = Except.ok ({ b with status := BookingStatus.confirmed, everConfirmed := true },
              { id := s.nextPaymentId, bookingId := bid, method := m, amount := amt,
                status := PaymentStatus.captured })
        ∧ lookupBooking (processPayment s bid m amt).1 bid
            = some { b with status := BookingStatus.confirmed, everConfirmed := true }
        ∧ paymentsOf (processPayment s bid m amt).1 bid
            = paymentsOf s bid
              ++ [{ id := s.nextPaymentId, bookingId := bid, method := m, amount := amt,
                    status := PaymentStatus.captured }]) := by
  refine ⟨?_, ?_, ?_, ?_, processPayment_error_unchanged s bid m amt, ?_⟩
  · intro hl
    unfold processPayment
    rw [hl]
  · intro b hl hst
    unfold processPayment
    rw [hl]
    simp [hst]
  · intro b hl hst hamt
    unfold processPayment
    rw [hl]
    simp [hst, hamt]
  · intro b hl hst hamt hra
    unfold processPayment
    rw [hl]
    simp [hst, hamt, hra]
  · intro b hl hst hamt hra
    have hbid := lookupBooking_id hl
    subst hamt
    refine ⟨?_, ?_, ?_⟩
    · unfold processPayment
      rw [hl]
      simp [hst, hra]
    · unfold processPayment
      rw [hl]
      simp [hst, hra]
      unfold lookupBooking at hl ⊢
      simp only
      rw [find?_map_confirmUpd, hl]
      simp only [Option.map_some']
      congr 1
      unfold confirmUpd
      rw [if_pos hbid]
    · unfold processPayment
      rw [hl]
      simp [hst, hra]
      unfold paymentsOf
      simp only
      rw [List.filter_append]
      congr 1
      simp

/-- Pending booking with total 15000 cents, for the Scenario D witness. -/
def demoPayStore : Store :=
  { initStore [] [{ id := 1, pricePerNight := 7500 }] [] with
    bookings := [{ id := 1, userId := 1, status := BookingStatus.pending,
                   total := 15000, everConfirmed := false }],
    hotelBookings := [{ id := 1, bookingId := 1, roomId := 1, checkIn := 1,
                        checkOut := 3, price := 15000 }],
    nextBookingId := 2, nextSubId := 2 }

theorem processPayment_contract_witness :
    processPayment demoPayStore 1 "card" 14999 = (demoPayStore, Except.error Err.AmountMismatch)
    ∧ (lookupBooking demoPayStore 1).map (fun b => b.status) = some BookingStatus.pending :=
  ⟨(processPayment_contract demoPayStore 1 "card" 14999).2.2.1
      { id := 1, userId := 1, status := BookingStatus.pending, total := 15000,
        everConfirmed := false }
      (by decide) (by decide) (by decide),
   by decide⟩

/-- C4: createBooking fails with InvalidSelection when no resource is
selected, PassengerRequired when a flight is selected with zero passengers,
ResourceUnavailable when any selected resource's availability check fails;
every failure returns the store unchanged (no partial state), and otherwise
the Booking is returned in pending state. -/
theorem createBooking_contract (s : Store) (u : Nat) (sel : Selections)
    (pax : List Passenger) :
    (sel.flight = none → sel.hotel = none → sel.car = none →
      createBooking s u sel pax = (s, Except.error Err.InvalidSelection))
    ∧ (∀ f, sel.flight = some f → pax = [] →
      createBooking s u sel pax = (s, Except.error Err.PassengerRequired))
    ∧ ((sel.flight ≠ none ∨ sel.hotel ≠ none ∨ sel.car ≠ none) →
        (sel.flight = none ∨ pax ≠ []) →
        selectionsAvailable s sel pax.length = false →
      createBooking s u sel pax = (s, Except.error Err.ResourceUnavailable))
    ∧ (∀ e, (createBooking s u sel pax).2 = Except.error e →
        (createBooking s u sel pax).1 = s)
    ∧ ((sel.flight ≠ none ∨ sel.hotel ≠ none ∨ sel.car ≠ none) →
        (sel.flight = none ∨ pax ≠ []) →
        selectionsAvailable s sel pax.length = true →
      ∃ s' b, createBooking s u sel pax = (s', Except.ok b)
        ∧ b.status = BookingStatus.pending
        ∧ b.total = lineTotal s sel pax.length) := by
  have hc1 : ∀ (o : Option FlightSel), o ≠ none → o.isNone = false := by
    intro o ho
    cases o with
    | none => exact absurd rfl ho
    | some f => rfl
  have hc2 : ∀ (o : Option HotelSel), o ≠ none → o.isNone = false := by
    intro o ho
    cases o with
    | none => exact absurd rfl ho
    | some f => rfl
  have hc3 : ∀ (o : Option CarSel), o ≠ none → o.isNone = false := by
    intro o ho
    cases o with
    | none => exact absurd rfl ho
    | some f => rfl
  refine ⟨?_, ?_, ?_, createBooking_error_unchanged s u sel pax, ?_⟩
  · intro h1 h2 h3
    unfold createBooking
    simp [h1, h2, h3]
  · intro f hf hpax
    unfold createBooking
    simp [hf, hpax]
  · intro hsel hpx hav
    unfold createBooking
    have hcond1 : (sel.flight.isNone && sel.hotel.isNone && sel.car.isNone) = false := by
      rcases hsel with h | h | h
      · simp [hc1 _ h]
      · simp [hc2 _ h]
      · simp [hc3 _ h]
    have hcond2 : (sel.flight.isSome && pax.isEmpty) = false := by
      rcases hpx with h | h
      · simp [h]
      · simp [h]
    simp [hcond1, hcond2, hav]
  · intro hsel hpx hav
    unfold createBooking
    have hcond1 : (sel.flight.isNone && sel.hotel.isNone && sel.car.isNone) = false := by
      rcases hsel with h | h | h
      · simp [hc1 _ h]
      · simp [hc2 _ h]
      · simp [hc3 _ h]
    have hcond2 : (sel.flight.isSome && pax.isEmpty) = false := by
      rcases hpx with h | h
      · simp [h]
      · simp [h]
    simp [hcond1, hcond2, hav]
    exact ⟨_, _, ⟨rfl, rfl⟩, rfl, rfl⟩

theorem createBooking_contract_witness :
    createBooking (initStore [] [] []) 1
        { flight := none, hotel := none, car := none } []
      = (initStore [] [] [], Except.error Err.InvalidSelection)
    ∧ (∃ s' b, createBooking demoPayStore 1
          { flight := none, hotel := some { roomId := 1, checkIn := 3, checkOut := 5 },
            car := none } []
        = (s', Except.ok b) ∧ b.status = BookingStatus.pending
        ∧ b.total = lineTotal demoPayStore
            { flight := none, hotel := some { roomId := 1, checkIn := 3, checkOut := 5 },
              car := none } 0) :=
  ⟨(createBooking_contract (initStore [] [] []) 1
      { flight := none, hotel := none, car := none } []).1 rfl rfl rfl,
   (createBooking_contract demoPayStore 1
      { flight := none, hotel := some { roomId := 1, checkIn := 3, checkOut := 5 },
        car := none } []).2.2.2.2
     (Or.inr (Or.inl (by decide))) (Or.inl rfl) (by decide)⟩

/-- C5: over every reachable store, a Booking is confirmed iff it has
exactly one captured Payment whose amount equals its total; a cancelled
Booking that was previously confirmed (ghost flag everConfirmed) has exactly
one refunded Payment; a pending Booking, or one cancelled directly from
pending, has zero Payments. -/
theorem payment_conservation {fl : List Flight} {rs : List Room} {cs : List Car}
    {s : Store} (h : Reachable fl rs cs s) :
    ∀ b ∈ s.bookings,
      (b.status = BookingStatus.confirmed ↔
        ∃ p, paymentsOf s b.id = [p] ∧ p.status = PaymentStatus.captured
          ∧ p.amount = b.total)
      ∧ (b.status = BookingStatus.cancelled → b.everConfirmed = true →
          ∃ p, paymentsOf s b.id = [p] ∧ p.status = PaymentStatus.refunded)
      ∧ (b.status = BookingStatus.pending → paymentsOf s b.id = [])
      ∧ (b.status = BookingStatus.cancelled → b.everConfirmed = false →
          paymentsOf s b.id = []) := by
  intro b hb
  have hg := (inv_reachable h).2.2.2.2.2.2 b hb
  unfold GoodBooking paymentClauses at hg
  exact ⟨hg.1, fun h1 h2 => (hg.2.1 h1 h2).imp (fun p hp => ⟨hp.1, hp.2.1⟩),
    hg.2.2.1, hg.2.2.2.1⟩

/-- Reference rooms for the demo trace. -/
def demoRooms : List Room := [{ id := 1, pricePerNight := 50 }]

def demoInit : Store := initStore [] demoRooms []

def demoSel : Selections :=
  { flight := none, hotel := some { roomId := 1, checkIn := 1, checkOut := 3 }, car := none }

/-- Store after creating a pending hotel booking (total 100). -/
def demoS1 : Store := (createBooking demoInit 7 demoSel []).1

/-- Store after paying the booking (confirmed, captured payment). -/
def demoS2 : Store := (processPayment demoS1 1 "card" 100).1

/-- Store after cancelling the confirmed booking (refunded payment). -/
def demoS3 : Store := (cancelBooking demoS2 1).1

theorem demoReach2 : Reachable [] demoRooms [] demoS2 :=
  Relation.ReflTransGen.tail
    (Relation.ReflTransGen.tail Relation.ReflTransGen.refl
      (SysStep.create 7 demoSel [] demoInit))
    (SysStep.pay 1 "card" 100 demoS1)

theorem demoReach3 : Reachable [] demoRooms [] demoS3 :=
  Relation.ReflTransGen.tail demoReach2 (SysStep.cancel 1 demoS2)

theorem payment_conservation_witness :
    ∃ p, paymentsOf demoS3 1 = [p] ∧ p.status = PaymentStatus.refunded :=
  (payment_conservation demoReach3
      { id := 1, userId := 7, status := BookingStatus.cancelled, total := 100,
        everConfirmed := true }
      (by decide)).2.1 (by decide) (by decide)

theorem cancelBooking_of_cancelled {s : Store} {bid : Nat} {b : Booking}
    (hl : lookupBooking s bid = some b) (hc : b.status = BookingStatus.cancelled) :
    cancelBooking s bid = (s, Except.error Err.InvalidState) := by
  unfold cancelBooking
  rw [hl]
  simp [hc]

theorem createBooking_mem_mono (s : Store) (u : Nat) (sel : Selections)
    (pax : List Passenger) {b : Booking} (hb : b ∈ s.bookings) :
    b ∈ (createBooking s u sel pax).1.bookings := by
  unfold createBooking
  split_ifs
  · exact hb
  · exact hb
  · exact hb
  · exact List.mem_append_left _ hb

/-- C6: a first cancelBooking call on a non-cancelled booking succeeds
(marking the Payment of a confirmed booking refunded), a second
cancelBooking call on the same booking fails with InvalidState and leaves
the store unchanged (still cancelled), and no engine step takes a booking
out of the cancelled status. -/
theorem cancel_idempotent_rejection {fl : List Flight} {rs : List Room} {cs : List Car}
    {s : Store} (h : Reachable fl rs cs s) :
    (∀ bid b, lookupBooking s bid = some b → b.status ≠ BookingStatus.cancelled →
      (cancelBooking s bid).2 = Except.ok { b with status := BookingStatus.cancelled }
      ∧ (b.status = BookingStatus.confirmed →
          ∃ p, paymentsOf (cancelBooking s bid).1 bid = [p]
            ∧ p.status = PaymentStatus.refunded)
      ∧ lookupBooking (cancelBooking s bid).1 bid
          = some { b with status := BookingStatus.cancelled }
      ∧ cancelBooking (cancelBooking s bid).1 bid
          = ((cancelBooking s bid).1, Except.error Err.InvalidState))
    ∧ (∀ s', SysStep s s' → ∀ b ∈ s.bookings, b.status = BookingStatus.cancelled →
        ∃ b' ∈ s'.bookings, b'.id = b.id ∧ b'.status = BookingStatus.cancelled) := by
  obtain ⟨hnd, hbk, hpay, hfbv, hhbv, hcbv, hgood⟩ := inv_reachable h
  constructor
  · intro bid b hl hnc
    have hbid := lookupBooking_id hl
    have hbmem := lookupBooking_mem hl
    have hfind : List.find? (fun x => x.id == bid) (s.bookings.map (cancelUpd bid))
        = some { b with status := BookingStatus.cancelled } := by
      rw [find?_map_cancelUpd]
      unfold lookupBooking at hl
      rw [hl]
      simp only [Option.map_some']
      congr 1
      unfold cancelUpd
      rw [if_pos hbid]
    have hlook : lookupBooking (cancelBooking s bid).1 bid
        = some { b with status := BookingStatus.cancelled } := by
      cases hst : b.status with
      | cancelled => exact absurd hst hnc
      | pending =>
        unfold cancelBooking
        rw [hl]
        simp [hst]
        unfold lookupBooking
        exact hfind
      | confirmed =>
        unfold cancelBooking
        rw [hl]
        simp [hst]
        unfold lookupBooking
        exact hfind
    refine ⟨?_, ?_, hlook, ?_⟩
    · cases hst : b.status with
      | cancelled => exact absurd hst hnc
      | pending =>
        unfold cancelBooking
        rw [hl]
        simp [hst]
      | confirmed =>
        unfold cancelBooking
        rw [hl]
        simp [hst]
    · intro hst
      have hg := hgood b hbmem
      unfold GoodBooking paymentClauses at hg
      obtain ⟨p, hpl, hpc, hpa⟩ := hg.1.1 hst
      have hpbid : p.bookingId = b.id := by
        have hmem : p ∈ paymentsOf s b.id := by
          rw [hpl]
          exact List.mem_singleton.2 rfl
        exact (mem_paymentsOf hmem).2
      refine ⟨{ p with status := PaymentStatus.refunded }, ?_, rfl⟩
      unfold cancelBooking
      rw [hl]
      simp [hst]
      unfold paymentsOf
      simp only
      rw [hbid] at hpl hpbid
      rw [filter_refundUpd]
      unfold paymentsOf at hpl
      rw [hpl]
      simp only [List.map_cons, List.map_nil]
      congr 1
      unfold refundUpd
      rw [if_pos hpbid]
    · exact cancelBooking_of_cancelled hlook rfl
  · intro s' hstep b hb hc
    cases hstep with
    | create u sel pax s =>
      exact ⟨b, createBooking_mem_mono s u sel pax hb, rfl, hc⟩
    | pay bid m amt s =>
      unfold processPayment
      cases hl : lookupBooking s bid with
      | none => exact ⟨b, hb, rfl, hc⟩
      | some b0 =>
        by_cases hst : b0.status = BookingStatus.pending
        · by_cases hamt : amt = b0.total
          · cases hra : recheckAvailable s bid with
            | false =>
              simp [hst, hamt, hra]
              exact ⟨b, hb, rfl, hc⟩
            | true =>
              simp [hst, hamt, hra]
              refine ⟨b, hb, confirmUpd_id bid b, ?_⟩
              by_cases hbid2 : b.id = bid
              · have hb0 : b = b0 := by
                  apply List.inj_on_of_nodup_map hnd hb (lookupBooking_mem hl)
                  rw [hbid2, lookupBooking_id hl]
                rw [hb0, hst] at hc
                cases hc
              · unfold confirmUpd
                rw [if_neg hbid2]
                exact hc
          · simp [hst, hamt]
            exact ⟨b, hb, rfl, hc⟩
        · simp [hst]
          exact ⟨b, hb, rfl, hc⟩
    | cancel bid s =>
      unfold cancelBooking
      cases hl : lookupBooking s bid with
      | none => exact ⟨b, hb, rfl, hc⟩
      | some b0 =>
        have hstatus : (cancelUpd bid b).status = BookingStatus.cancelled := by
          unfold cancelUpd
          split
          · rfl
          · exact hc
        cases hst : b0.status with
        | cancelled =>
          simp [hst]
          exact ⟨b, hb, rfl, hc⟩
        | pending =>
          simp [hst]
          exact ⟨b, hb, cancelUpd_id bid b, hstatus⟩
        | confirmed =>
          simp [hst]
          exact ⟨b, hb, cancelUpd_id bid b, hstatus⟩

/-- The confirmed booking sitting in demoS2. -/
def demoConfirmedBooking : Booking :=
  { id := 1, userId := 7, status := BookingStatus.confirmed, total := 100,
    everConfirmed := true }

theorem cancel_idempotent_rejection_witness :
    (cancelBooking demoS2 1).2
        = Except.ok { demoConfirmedBooking with status := BookingStatus.cancelled }
    ∧ cancelBooking (cancelBooking demoS2 1).1 1
        = ((cancelBooking demoS2 1).1, Except.error Err.InvalidState) := by
  have happ := (cancel_idempotent_rejection demoReach2).1 1
      demoConfirmedBooking (by decide) (by decide)
  exact ⟨happ.1, happ.2.2.2⟩

/-- Result of one allocate call. -/
inductive AllocResult where
  | ok (idVal : Nat)
  | exhausted
deriving DecidableEq, Repr

/-- One concurrent caller of allocate: the max it last observed (none
between attempts), its remaining retries, and its final result (none while
still running). -/
structure Agent where
  snapshot : Option Nat
  retries : Nat
  result : Option AllocResult
deriving DecidableEq, Repr

/-- Allocator system state: numeric identifier suffixes issued so far (in
issuance order) and the per-caller states. -/
structure AllocSys where
  issued : List Nat
  agents : Nat → Agent

/-- Point update of the agent family. -/
def updAgent (ag : Nat → Agent) (i : Nat) (a : Agent) : Nat → Agent :=
  fun j => if j = i then a else ag j

/-- Numeric maximum of the issued identifiers (0 when none). -/
def maxIssued (l : List Nat) : Nat := l.foldr max 0

/-- Successor state of a read step: the caller scans the store and records
the current max. -/
def readSucc (s : AllocSys) (i : Nat) : AllocSys :=
  { issued := s.issued,
    agents := updAgent s.agents i
      { snapshot := some (maxIssued s.issued), retries := (s.agents i).retries,
        result := none } }

/-- Successor state of a successful create-if-absent of candidate m+1. -/
def insertOkSucc (s : AllocSys) (i m : Nat) : AllocSys :=
  { issued := s.issued ++ [m + 1],
    agents := updAgent s.agents i
      { snapshot := none, retries := (s.agents i).retries,
        result := some (AllocResult.ok (m + 1)) } }

/-- Successor state of a detected collision with retries remaining: the
caller clears its snapshot to rescan with a freshly recomputed max. -/
def insertRetrySucc (s : AllocSys) (i r : Nat) : AllocSys :=
  { issued := s.issued,
    agents := updAgent s.agents i { snapshot := none, retries := r, result := none } }

/-- Successor state of a collision with retries exhausted: the caller fails
with AllocationExhausted instead of issuing the duplicate. -/
def insertFailSucc (s : AllocSys) (i m : Nat) : AllocSys :=
  { issued := s.issued,
    agents := updAgent s.agents i
      { snapshot := some m, retries := 0, result := some AllocResult.exhausted } }

/-- Modelled from the spec (section 4.1, the allocator's server.py absent
from the snapshot): one interleaved step of the detect-and-retry allocator.
A caller reads the current max, then attempts a create-if-absent of max+1;
the store accepts it only when no row with that identifier exists, a
collision consumes a retry, and a collision with no retries left yields
AllocationExhausted. -/
inductive AllocStep : AllocSys → AllocSys → Prop where
  | read (s : AllocSys) (i : Nat) :
      (s.agents i).result = none → (s.agents i).snapshot = none →
      AllocStep s (readSucc s i)
  | insertOk (s : AllocSys) (i m : Nat) :
      (s.agents i).result = none → (s.agents i).snapshot = some m →
      (m + 1) ∉ s.issued →
      AllocStep s (insertOkSucc s i m)
  | insertRetry (s : AllocSys) (i m r : Nat) :
      (s.agents i).result = none → (s.agents i).snapshot = some m →
      (m + 1) ∈ s.issued → (s.agents i).retries = r + 1 →
      AllocStep s (insertRetrySucc s i r)
  | insertFail (s : AllocSys) (i m : Nat) :
      (s.agents i).result = none → (s.agents i).snapshot = some m →
      (m + 1) ∈ s.issued → (s.agents i).retries = 0 →
      AllocStep s (insertFailSucc s i m)

/-- Fresh allocator: nothing issued, every caller ready with the retry
budget. -/
def allocInit (retryBudget : Nat) : AllocSys :=
  { issued := [],
    agents := fun _ => { snapshot := none, retries := retryBudget, result := none } }

def AllocReachable (retryBudget : Nat) (s : AllocSys) : Prop :=
  Relation.ReflTransGen AllocStep (allocInit retryBudget) s

/-- Allocator invariant: the issued suffixes are exactly 1..n in order,
snapshots never exceed the current count, successful results are issued
identifiers, distinct callers never hold the same identifier, and an
exhausted caller is out of retries. -/
def AllocInv (s : AllocSys) : Prop :=
  s.issued = List.range' 1 s.issued.length
  ∧ (∀ i m, (s.agents i).snapshot = some m → m ≤ s.issued.length)
  ∧ (∀ i v, (s.agents i).result = some (AllocResult.ok v) → v ∈ s.issued)
  ∧ (∀ i j v w, i ≠ j → (s.agents i).result = some (AllocResult.ok v) →
      (s.agents j).result = some (AllocResult.ok w) → v ≠ w)
  ∧ (∀ i, (s.agents i).result = some AllocResult.exhausted → (s.agents i).retries = 0)

theorem foldr_max_le {l : List Nat} {c k : Nat} (hc : c ≤ k)
    (hl : ∀ x ∈ l, x ≤ k) : l.foldr max c ≤ k := by
  induction l with
  | nil => exact hc
  | cons a t ih =>
    simp only [List.foldr_cons]
    exact max_le (hl a (by simp)) (ih (fun x hx => hl x (by simp [hx])))

theorem updAgent_same (ag : Nat → Agent) (i : Nat) (a : Agent) :
    updAgent ag i a i = a := by
  unfold updAgent
  simp

theorem updAgent_other (ag : Nat → Agent) {i j : Nat} (a : Agent) (h : j ≠ i) :
    updAgent ag i a j = ag j := by
  unfold updAgent
  simp [h]

theorem allocInv_step {s s' : AllocSys} (hstep : AllocStep s s') (h : AllocInv s) :
    AllocInv s' := by
  obtain ⟨hrange, hsnap, hok, hdis, hexh⟩ := h
  cases hstep with
  | read i hres hsn =>
    unfold readSucc
    refine ⟨hrange, ?_, ?_, ?_, ?_⟩
    · intro j m hj
      by_cases hji : j = i
      · subst hji
        simp [updAgent] at hj
        subst hj
        show maxIssued s.issued ≤ s.issued.length
        unfold maxIssued
        apply foldr_max_le (Nat.zero_le _)
        intro x hx
        rw [hrange] at hx
        have := List.mem_range'_1.1 hx
        omega
      · simp [updAgent, hji] at hj
        exact hsnap j m hj
    · intro j v hj
      by_cases hji : j = i
      · subst hji
        simp [updAgent] at hj
      · simp [updAgent, hji] at hj
        exact hok j v hj
    · intro j k v w hjk hj hk
      by_cases hji : j = i
      · subst hji
        simp [updAgent] at hj
      · by_cases hki : k = i
        · subst hki
          simp [updAgent] at hk
        · simp [updAgent, hji] at hj
          simp [updAgent, hki] at hk
          exact hdis j k v w hjk hj hk
    · intro j hj
      by_cases hji : j = i
      · subst hji
        simp [updAgent] at hj
      · simp [updAgent, hji] at hj ⊢
        exact hexh j hj
  | insertOk i m hres hsn hnm =>
    have hm := hsnap i m hsn
    have hmn : m = s.issued.length := by
      by_contra hne
      apply hnm
      rw [hrange]
      rw [List.mem_range'_1]
      omega
    have hconc : s.issued ++ [m + 1] = List.range' 1 (s.issued.length + 1) := by
      rw [List.range'_1_concat]
      rw [← hrange, hmn]
      congr 1
      simp
      omega
    unfold insertOkSucc
    refine ⟨?_, ?_, ?_, ?_, ?_⟩
    · show s.issued ++ [m + 1] = List.range' 1 (s.issued ++ [m + 1]).length
      simp only [List.length_append, List.length_cons, List.length_nil]
      rw [hconc]
    · intro j m' hj
      by_cases hji : j = i
      · subst hji
        simp [updAgent] at hj
      · simp [updAgent, hji] at hj
        have := hsnap j m' hj
        show m' ≤ (s.issued ++ [m + 1]).length
        simp
        omega
    · intro j v hj
      by_cases hji : j = i
      · subst hji
        simp [updAgent] at hj
        subst hj
        show m + 1 ∈ s.issued ++ [m + 1]
        simp
      · simp [updAgent, hji] at hj
        exact List.mem_append_left _ (hok j v hj)
    · intro j k v w hjk hj hk
      by_cases hji : j = i
      · subst hji
        simp [updAgent] at hj
        subst hj
        have hki : ¬ k = j := fun hh => hjk hh.symm
        simp [updAgent, hki] at hk
        have hw := hok k w hk
        intro hvw
        rw [← hvw] at hw
        exact hnm hw
      · simp [updAgent, hji] at hj
        by_cases hki : k = i
        · subst hki
          simp [updAgent] at hk
          subst hk
          have hv := hok j v hj
          intro hvw
          rw [hvw] at hv
          exact hnm hv
        · simp [updAgent, hki] at hk
          exact hdis j k v w hjk hj hk
    · intro j hj
      by_cases hji : j = i
      · subst hji
        simp [updAgent] at hj
      · simp [updAgent, hji] at hj ⊢
        exact hexh j hj
  | insertRetry i m r hres hsn hmem hr =>
    unfold insertRetrySucc
    refine ⟨hrange, ?_, ?_, ?_, ?_⟩
    · intro j m' hj
      by_cases hji : j = i
      · subst hji
        simp [updAgent] at hj
      · simp [updAgent, hji] at hj
        exact hsnap j m' hj
    · intro j v hj
      by_cases hji : j = i
      · subst hji
        simp [updAgent] at hj
      · simp [updAgent, hji] at hj
        exact hok j v hj
    · intro j k v w hjk hj hk
      by_cases hji : j = i
      · subst hji
        simp [updAgent] at hj
      · by_cases hki : k = i
        · subst hki
          simp [updAgent] at hk
        · simp [updAgent, hji] at hj
          simp [updAgent, hki] at hk
          exact hdis j k v w hjk hj hk
    · intro j hj
      by_cases hji : j = i
      · subst hji
        simp [updAgent] at hj
      · simp [updAgent, hji] at hj ⊢
        exact hexh j hj
  | insertFail i m hres hsn hmem hr =>
    unfold insertFailSucc
    refine ⟨hrange, ?_, ?_, ?_, ?_⟩
    · intro j m' hj
      by_cases hji : j = i
      · subst hji
        simp [updAgent] at hj
        subst hj
        exact hsnap _ _ hsn
      · simp [updAgent, hji] at hj
        exact hsnap j m' hj
    · intro j v hj
      by_cases hji : j = i
      · subst hji
        simp [updAgent] at hj
      · simp [updAgent, hji] at hj
        exact hok j v hj
    · intro j k v w hjk hj hk
      by_cases hji : j = i
      · subst hji
        simp [updAgent] at hj
      · by_cases hki : k = i
        · subst hki
          simp [updAgent] at hk
        · simp [updAgent, hji] at hj
          simp [updAgent, hki] at hk
          exact hdis j k v w hjk hj hk
    · intro j hj
      by_cases hji : j = i
      · subst hji
        simp [updAgent]
      · simp [updAgent, hji] at hj ⊢
        exact hexh j hj

theorem allocInv_init (r : Nat) : AllocInv (allocInit r) := by
  unfold AllocInv allocInit
  simp

theorem allocInv_reachable {r : Nat} {s : AllocSys} (h : AllocReachable r s) :
    AllocInv s := by
  unfold AllocReachable at h
  induction h with
  | refl => exact allocInv_init r
  | tail hsteps hstep ih => exact allocInv_step hstep ih

/-- C8: in every state reachable by interleaved allocate calls, the issued
identifiers are strictly increasing in issuance order (hence unique, never
reused), every successful caller holds an issued identifier, two distinct
callers never hold the same identifier, and a caller that reports
AllocationExhausted has consumed its whole retry budget instead of issuing
a duplicate. -/
theorem allocate_unique_monotone {R : Nat} {s : AllocSys}
    (h : AllocReachable R s) :
    List.Pairwise (fun a b => a < b) s.issued
    ∧ s.issued.Nodup
    ∧ (∀ i v, (s.agents i).result = some (AllocResult.ok v) → v ∈ s.issued)
    ∧ (∀ i j v w, i ≠ j → (s.agents i).result = some (AllocResult.ok v) →
        (s.agents j).result = some (AllocResult.ok w) → v ≠ w)
    ∧ (∀ i, (s.agents i).result = some AllocResult.exhausted →
        (s.agents i).retries = 0) := by
  have hinv := allocInv_reachable h
  refine ⟨?_, ?_, hinv.2.2.1, hinv.2.2.2.1, hinv.2.2.2.2⟩
  · rw [hinv.1]
    exact List.pairwise_lt_range' 1 s.issued.length
  · rw [hinv.1]
    exact List.nodup_range' 1 s.issued.length

/-- Demo allocator trace: two callers race, both observe max 0, the first
inserts 1, the second collides, retries with a fresh scan and inserts 2. -/
def allocDemo1 : AllocSys := readSucc (allocInit 1) 0

def allocDemo2 : AllocSys := readSucc allocDemo1 1

def allocDemo3 : AllocSys := insertOkSucc allocDemo2 0 0

def allocDemo4 : AllocSys := insertRetrySucc allocDemo3 1 0

def allocDemo5 : AllocSys := readSucc allocDemo4 1

def allocDemo6 : AllocSys := insertOkSucc allocDemo5 1 1

theorem allocDemoReach : AllocReachable 1 allocDemo6 :=
  Relation.ReflTransGen.tail
    (Relation.ReflTransGen.tail
      (Relation.ReflTransGen.tail
        (Relation.ReflTransGen.tail
          (Relation.ReflTransGen.tail
            (Relation.ReflTransGen.tail Relation.ReflTransGen.refl
              (AllocStep.read (allocInit 1) 0 (by decide) (by decide)))
            (AllocStep.read allocDemo1 1 (by decide) (by decide)))
          (AllocStep.insertOk allocDemo2 0 0 (by decide) (by decide) (by decide)))
        (AllocStep.insertRetry allocDemo3 1 0 0 (by decide) (by decide) (by decide) (by decide)))
      (AllocStep.read allocDemo4 1 (by decide) (by decide)))
    (AllocStep.insertOk allocDemo5 1 1 (by decide) (by decide) (by decide))

theorem allocate_unique_monotone_witness :
    List.Pairwise (fun a b => a < b) allocDemo6.issued
    ∧ allocDemo6.issued = [1, 2]
    ∧ (allocDemo6.agents 0).result = some (AllocResult.ok 1)
    ∧ (allocDemo6.agents 1).result = some (AllocResult.ok 2) :=
  ⟨(allocate_unique_monotone allocDemoReach).1, by decide, by decide, by decide⟩

/-- State of the cached initialize promise in the client module scope. -/
inductive PromiseState where
  | pending
  | resolved (sid : String)
  | rejected
deriving DecidableEq, Repr

/-- What one initializeMCP invocation hands back to its caller: the cached
session id, or the (shared, possibly in-flight) promise. -/
inductive InvokeOutcome where
  | value (sid : String)
  | attached (p : PromiseState)
deriving DecidableEq, Repr

/-- Module-scope state of the MCP client (part_000 lines 6-9, part_002
lines 7-9): the cached mcp-session-id, the cached initialize promise, and a
ghost count of initialize requests sent to the server. -/
structure MCPState where
  mcpSessionId : Option String
  initPromise : Option PromiseState
  requestsSent : Nat
deriving DecidableEq, Repr

/-- Embeds initializeMCP (part_000 lines 11-47, part_002 lines 11-47): the
synchronous prologue of one invocation.  A cached session id is returned at
once; an existing promise is returned without a new request; otherwise a
single initialize fetch is started and its pending promise cached. -/
def initializeMCP (st : MCPState) : MCPState × InvokeOutcome :=
  match st.mcpSessionId with
  | some sid => (st, InvokeOutcome.value sid)
  | none =>
    match st.initPromise with
    | some p => (st, InvokeOutcome.attached p)
    | none =>
      ({ st with initPromise := some PromiseState.pending,
                 requestsSent := st.requestsSent + 1 },
       InvokeOutcome.attached PromiseState.pending)

/-- Embeds the async tail of initializeMCP (part_000 lines 36-43): the
response arrives; with an mcp-session-id header the id is cached and the
promise resolves, without one the promise rejects (the thrown Error) and
the session id stays null. -/
def settleInit (st : MCPState) (header : Option String) : MCPState :=
  match header with
  | some h => { st with mcpSessionId := some h,
                        initPromise := some (PromiseState.resolved h) }
  | none => { st with initPromise := some PromiseState.rejected }

/-- Events of one page load: invocations of initializeMCP interleaved with
the arrival of the single response (only an unsettled promise can settle). -/
inductive MCPStep : MCPState → MCPState → Prop where
  | invoke (st : MCPState) : MCPStep st (initializeMCP st).1
  | settle (st : MCPState) (header : Option String) :
      st.initPromise = some PromiseState.pending →
      MCPStep st (settleInit st header)

/-- Fresh page load: no session id, no promise, no request sent. -/
def mcpInit : MCPState :=
  { mcpSessionId := none, initPromise := none, requestsSent := 0 }

def MCPReachable (st : MCPState) : Prop :=
  Relation.ReflTransGen MCPStep mcpInit st

/-- MCP client invariant. -/
def MCPInv (st : MCPState) : Prop :=
  st.requestsSent ≤ 1
  ∧ (st.initPromise = none → st.requestsSent = 0)
  ∧ (∀ h, st.mcpSessionId = some h → st.initPromise = some (PromiseState.resolved h))
  ∧ (∀ h, st.initPromise = some (PromiseState.resolved h) → st.mcpSessionId = some h)
  ∧ (st.initPromise = none → st.mcpSessionId = none)
  ∧ (st.initPromise = some PromiseState.pending → st.mcpSessionId = none)
  ∧ (st.initPromise = some PromiseState.rejected → st.mcpSessionId = none)

theorem mcpInv_step {st st' : MCPState} (hstep : MCPStep st st') (h : MCPInv st) :
    MCPInv st' := by
  obtain ⟨h1, h2, h3, h4, h5, h6, h7⟩ := h
  cases hstep with
  | invoke =>
    unfold initializeMCP
    cases hs : st.mcpSessionId with
    | some sid => exact ⟨h1, h2, h3, h4, h5, h6, h7⟩
    | none =>
      cases hp : st.initPromise with
      | some p => exact ⟨h1, h2, h3, h4, h5, h6, h7⟩
      | none =>
        have hr0 := h2 hp
        show MCPInv { mcpSessionId := none, initPromise := some PromiseState.pending,
                      requestsSent := st.requestsSent + 1 }
        unfold MCPInv
        simp
        omega
  | settle header hpend =>
    have hsid := h6 hpend
    unfold settleInit
    cases header with
    | some h' =>
      refine ⟨h1, ?_, ?_, ?_, ?_, ?_, ?_⟩
      · intro habs
        simp at habs
      · intro h'' hh
        simp at hh
        simp [hh]
      · intro h'' hh
        simp at hh
        simp [hh]
      · intro habs
        simp at habs
      · intro habs
        simp at habs
      · intro habs
        simp at habs
    | none =>
      refine ⟨h1, ?_, ?_, ?_, ?_, ?_, ?_⟩
      · intro habs
        simp at habs
      · intro h'' hh
        simp at hh
        rw [hsid] at hh
        cases hh
      · intro h'' hh
        simp at hh
      · intro habs
        simp at habs
      · intro habs
        simp at habs
      · intro _
        simp
        exact hsid

theorem mcpInv_reachable {st : MCPState} (h : MCPReachable st) : MCPInv st := by
  unfold MCPReachable at h
  induction h with
  | refl =>
    unfold MCPInv mcpInit
    simp
  | tail hsteps hstep ih => exact mcpInv_step hstep ih

/-- C10: in every reachable client state, at most one initialize request
has been sent (none before a promise exists), a cached session id makes
initializeMCP return it unchanged without a new request, a resolved promise
and the cached id always agree, and a response without the mcp-session-id
header rejects the promise (the thrown Error) leaving the session id
unset. -/
theorem initializeMCP_idempotent {st : MCPState} (h : MCPReachable st) :
    st.requestsSent ≤ 1
    ∧ (st.initPromise = none → st.requestsSent = 0)
    ∧ (∀ sid, st.mcpSessionId = some sid →
        initializeMCP st = (st, InvokeOutcome.value sid))
    ∧ (∀ sid, st.initPromise = some (PromiseState.resolved sid) →
        st.mcpSessionId = some sid
        ∧ initializeMCP st = (st, InvokeOutcome.value sid))
    ∧ (st.initPromise = some PromiseState.pending →
        (settleInit st none).initPromise = some PromiseState.rejected
        ∧ (settleInit st none).mcpSessionId = none
        ∧ ∀ sid, (settleInit st (some sid)).mcpSessionId = some sid) := by
  have hinv := mcpInv_reachable h
  obtain ⟨h1, h2, h3, h4, h5, h6, h7⟩ := hinv
  have hret : ∀ sid, st.mcpSessionId = some sid →
      initializeMCP st = (st, InvokeOutcome.value sid) := by
    intro sid hs
    unfold initializeMCP
    rw [hs]
  refine ⟨h1, h2, hret, ?_, ?_⟩
  · intro sid hp
    exact ⟨h4 sid hp, hret sid (h4 sid hp)⟩
  · intro hpend
    refine ⟨rfl, ?_, fun sid => rfl⟩
    show st.mcpSessionId = none
    exact h6 hpend

def mcpDemo1 : MCPState := (initializeMCP mcpInit).1

def mcpDemo2 : MCPState := settleInit mcpDemo1 (some "abc")

theorem mcpDemoReach : MCPReachable mcpDemo2 :=
  Relation.ReflTransGen.tail
    (Relation.ReflTransGen.tail Relation.ReflTransGen.refl (MCPStep.invoke mcpInit))
    (MCPStep.settle mcpDemo1 (some "abc") (by decide))

theorem initializeMCP_idempotent_witness :
    mcpDemo2.requestsSent ≤ 1
    ∧ initializeMCP mcpDemo2 = (mcpDemo2, InvokeOutcome.value "abc") :=
  ⟨(initializeMCP_idempotent mcpDemoReach).1,
   (initializeMCP_idempotent mcpDemoReach).2.2.1 "abc" (by decide)⟩

/-- Booking response the client keeps as pendingBooking. -/
structure BookingResponse where
  booking_id : Nat
  status : BookingStatus
  total_amount : Nat
deriving DecidableEq, Repr

/-- The payment arguments the client sends to the process_payment tool. -/
structure PaymentArgs where
  booking_id : Nat
  method : String
  amount : Nat
deriving DecidableEq, Repr

/-- Embeds the frontend processPayment handler (part_000 lines 355-398,
part_002 lines 415-471): with no pending booking it bails out locally;
otherwise it calls process_payment with booking_id :=
pendingBooking.booking_id and amount := pendingBooking.total_amount. -/
def clientPaymentArgs (pendingBooking : Option BookingResponse) (paymentMethod : String) :
    Option PaymentArgs :=
  match pendingBooking with
  | none => none
  | some pb =>
      some { booking_id := pb.booking_id, method := paymentMethod,
             amount := pb.total_amount }

/-- Rows created for a successful createBooking, characterised per table:
the new booking owns exactly the rows its selection produced, and nothing
else references its identifier. -/
theorem createBooking_rows (s : Store) (u : Nat) (sel : Selections)
    (pax : List Passenger) {b : Booking} (hInv : Inv s)
    (h : (createBooking s u sel pax).2 = Except.ok b) :
    (createBooking s u sel pax).1.flightBookings.filter (fun fb => fb.bookingId == b.id)
        = flightRowsFor s sel b.id pax.length
    ∧ (createBooking s u sel pax).1.hotelBookings.filter (fun hb => hb.bookingId == b.id)
        = hotelRowsFor s sel b.id
    ∧ (createBooking s u sel pax).1.carBookings.filter (fun cb => cb.bookingId == b.id)
        = carRowsFor s sel b.id
    ∧ b.status = BookingStatus.pending
    ∧ b.id = s.nextBookingId
    ∧ lookupBooking (createBooking s u sel pax).1 b.id = some b := by
  obtain ⟨hnd, hbk, hpay, hfbv, hhbv, hcbv, hgood⟩ := hInv
  unfold createBooking at h ⊢
  by_cases h1 : sel.flight.isNone && sel.hotel.isNone && sel.car.isNone
  · simp [h1] at h
  · by_cases h2 : sel.flight.isSome && pax.isEmpty
    · simp [h1, h2] at h
    · cases h3 : selectionsAvailable s sel pax.length with
      | false => simp [h1, h2, h3] at h
      | true =>
        simp [h1, h2, h3] at h
        subst h
        simp only [h1, h2, h3]
        simp
        refine ⟨?_, ?_, ?_, ?_⟩
        · have hold : List.filter (fun fb => fb.bookingId == s.nextBookingId)
              s.flightBookings = [] := by
            rw [List.filter_eq_nil_iff]
            intro fb hfb
            have := hfbv fb hfb
            simp
            omega
          have hnew : List.filter (fun fb => fb.bookingId == s.nextBookingId)
              (flightRowsFor s sel s.nextBookingId pax.length)
              = flightRowsFor s sel s.nextBookingId pax.length := by
            rw [List.filter_eq_self]
            intro fb hfb
            rw [flightRowsFor_bookingId hfb]
            simp
          rw [hold, hnew, List.nil_append]
        · have hold : List.filter (fun hb => hb.bookingId == s.nextBookingId)
              s.hotelBookings = [] := by
            rw [List.filter_eq_nil_iff]
            intro hb hhb
            have := hhbv hb hhb
            simp
            omega
          have hnew : List.filter (fun hb => hb.bookingId == s.nextBookingId)
              (hotelRowsFor s sel s.nextBookingId)
              = hotelRowsFor s sel s.nextBookingId := by
            rw [List.filter_eq_self]
            intro hb hhb
            rw [hotelRowsFor_bookingId hhb]
            simp
          rw [hold, hnew, List.nil_append]
        · have hold : List.filter (fun cb => cb.bookingId == s.nextBookingId)
              s.carBookings = [] := by
            rw [List.filter_eq_nil_iff]
            intro cb hcb
            have := hcbv cb hcb
            simp
            omega
          have hnew : List.filter (fun cb => cb.bookingId == s.nextBookingId)
              (carRowsFor s sel s.nextBookingId)
              = carRowsFor s sel s.nextBookingId := by
            rw [List.filter_eq_self]
            intro cb hcb
            rw [carRowsFor_bookingId hcb]
            simp
          rw [hold, hnew, List.nil_append]
        · unfold lookupBooking
          simp only
          rw [List.find?_append]
          have hnone : List.find? (fun x => x.id == s.nextBookingId) s.bookings = none := by
            rw [List.find?_eq_none]
            intro x hx
            have := hbk x hx
            simp
            omega
          rw [hnone]
          simp

/-- C9: a payment submitted through the frontend handler always carries
amount equal to the pending booking's total_amount (the total echoed from
creation), so against a store whose booking still has that total the
process_payment call can never fail with AmountMismatch; the echoed total
is the stored one because a created booking is read back unchanged. -/
theorem client_payment_echoes_total (pb : BookingResponse) (meth : String) :
    (∀ args, clientPaymentArgs (some pb) meth = some args →
      args.amount = pb.total_amount ∧ args.booking_id = pb.booking_id)
    ∧ (∀ s b args, clientPaymentArgs (some pb) meth = some args →
        lookupBooking s pb.booking_id = some b → b.total = pb.total_amount →
        (processPayment s args.booking_id args.method args.amount).2
          ≠ Except.error Err.AmountMismatch)
    ∧ (∀ s u sel pax b, Inv s → (createBooking s u sel pax).2 = Except.ok b →
        lookupBooking (createBooking s u sel pax).1 b.id = some b) := by
  refine ⟨?_, ?_, ?_⟩
  · intro args hargs
    unfold clientPaymentArgs at hargs
    simp at hargs
    subst hargs
    exact ⟨rfl, rfl⟩
  · intro s b args hargs hl htot
    unfold clientPaymentArgs at hargs
    simp at hargs
    subst hargs
    simp only
    unfold processPayment
    rw [hl]
    by_cases hst : b.status = BookingStatus.pending
    · cases hra : recheckAvailable s pb.booking_id with
      | false => simp [hst, hra, htot]
      | true => simp [hst, hra, htot]
    · simp [hst]
  · intro s u sel pax b hInv hok
    exact (createBooking_rows s u sel pax hInv hok).2.2.2.2.2

theorem client_payment_echoes_total_witness :
    (clientPaymentArgs
        (some { booking_id := 1, status := BookingStatus.pending, total_amount := 15000 })
        "card").map (fun args => args.amount) = some 15000
    ∧ (processPayment demoPayStore 1 "card" 15000).2 ≠ Except.error Err.AmountMismatch := by
  constructor
  · rfl
  · have happ := (client_payment_echoes_total
        { booking_id := 1, status := BookingStatus.pending, total_amount := 15000 }
        "card").2.1 demoPayStore
        { id := 1, userId := 1, status := BookingStatus.pending, total := 15000,
          everConfirmed := false }
        { booking_id := 1, method := "card", amount := 15000 }
        (by decide) (by decide) (by decide)
    exact happ

/-- Tool call the client's createBooking dispatch sends. -/
inductive ToolCall where
  | book_flight (flightId : Nat) (seat_class : String) (passengers : List Passenger)
  | book_hotel (roomId checkIn checkOut guests : Nat)
  | book_car (carId pickup dropoff : Nat)
deriving DecidableEq, Repr

/-- Client-side room selection (room id plus the hotel search form's
check-in, check-out and guest count). -/
structure RoomSelState where
  roomId : Nat
  check_in : Nat
  check_out : Nat
  guests : Nat
deriving DecidableEq, Repr

/-- Client-side car selection (car id plus the search form's dates). -/
structure CarSelState where
  carId : Nat
  pickup_date : Nat
  dropoff_date : Nat
deriving DecidableEq, Repr

/-- Embeds the frontend createBooking dispatch (part_000 lines 297-353,
part_002 lines 335-413): the if / else-if chain sends exactly one tool
call, book_flight when a flight is selected, else book_hotel when a room is
selected, else book_car when a car is selected; a hotel or car selection
accompanying a selected flight is silently ignored. -/
def clientBookRequest (selectedFlight : Option Nat) (seatClass : String)
    (passengers : List Passenger) (selectedRoom : Option RoomSelState)
    (selectedCar : Option CarSelState) : Option ToolCall :=
  match selectedFlight with
  | some fid => some (ToolCall.book_flight fid seatClass passengers)
  | none =>
    match selectedRoom with
    | some r => some (ToolCall.book_hotel r.roomId r.check_in r.check_out r.guests)
    | none =>
      match selectedCar with
      | some c => some (ToolCall.book_car c.carId c.pickup_date c.dropoff_date)
      | none => none

/-- Modelled from the spec and replit.md (tool list; server.py absent from
the snapshot): book_flight creates one Booking containing only a
FlightBooking. -/
def book_flight (s : Store) (uid fid : Nat) (pax : List Passenger) :
    Store × Except Err Booking :=
  createBooking s uid
    { flight := some { flightId := fid, date := 0 }, hotel := none, car := none } pax

/-- Modelled from the spec and replit.md: book_hotel creates one Booking
containing only a HotelBooking. -/
def book_hotel (s : Store) (uid rid ci co : Nat) : Store × Except Err Booking :=
  createBooking s uid
    { flight := none, hotel := some { roomId := rid, checkIn := ci, checkOut := co },
      car := none } []

/-- Modelled from the spec and replit.md: book_car creates one Booking
containing only a CarBooking. -/
def book_car (s : Store) (uid cid pu dr : Nat) : Store × Except Err Booking :=
  createBooking s uid
    { flight := none, hotel := none,
      car := some { carId := cid, pickup := pu, dropoff := dr } } []

/-- The whole client createBooking flow: dispatch the single tool call the
JSX handler would send and run the corresponding tool. -/
def clientCreateBooking (s : Store) (uid : Nat) (selectedFlight : Option Nat)
    (seatClass : String) (passengers : List Passenger)
    (selectedRoom : Option RoomSelState) (selectedCar : Option CarSelState) :
    Option (Store × Except Err Booking) :=
  match clientBookRequest selectedFlight seatClass passengers selectedRoom selectedCar with
  | none => none
  | some (ToolCall.book_flight fid _ pax) => some (book_flight s uid fid pax)
  | some (ToolCall.book_hotel rid ci co _) => some (book_hotel s uid rid ci co)
  | some (ToolCall.book_car cid pu dr) => some (book_car s uid cid pu dr)

/-- Seed store for the multi-selection run: one flight and one room. -/
def c7store : Store :=
  initStore [{ id := 1, capacity := 2, basePrice := 100 }]
    [{ id := 1, pricePerNight := 50 }] []

/-- A concrete passenger. -/
def c7pax : Passenger :=
  { first_name := "A", last_name := "B", gender := "F", dob := 0, passport_no := "P1" }

/-- The client run with BOTH a flight and a room selected. -/
def c7run : Option (Store × Except Err Booking) :=
  clientCreateBooking c7store 1 (some 1) "economy" [c7pax]
    (some { roomId := 1, check_in := 1, check_out := 3, guests := 2 }) none

theorem clientCreateBooking_multi_counterexample :
    (c7run.map (fun r => r.2.isOk)) = some true
    ∧ (c7run.map (fun r => r.1.hotelBookings.length)) = some 0
    ∧ (c7run.map (fun r => r.1.flightBookings.length)) = some 1 := by
  refine ⟨?_, ?_, ?_⟩ <;> decide

/-- C7 (amended): the client createBooking dispatch issues exactly one
single-kind tool call per submission, preferring flight over hotel over
car; a successful call returns one pending Booking owning exactly one
sub-booking, of that kind only, and any other selected kind is ignored. -/
theorem clientCreateBooking_single_kind (s : Store) (uid : Nat)
    (sf : Option Nat) (cls : String) (pax : List Passenger)
    (sr : Option RoomSelState) (sc : Option CarSelState) :
    (sf = none → sr = none → sc = none →
      clientCreateBooking s uid sf cls pax sr sc = none)
    ∧ (∀ fid, sf = some fid →
        clientCreateBooking s uid sf cls pax sr sc = some (book_flight s uid fid pax))
    ∧ (∀ r, sf = none → sr = some r →
        clientCreateBooking s uid sf cls pax sr sc
          = some (book_hotel s uid r.roomId r.check_in r.check_out))
    ∧ (∀ c, sf = none → sr = none → sc = some c →
        clientCreateBooking s uid sf cls pax sr sc
          = some (book_car s uid c.carId c.pickup_date c.dropoff_date))
    ∧ (∀ fid b, Inv s → (book_flight s uid fid pax).2 = Except.ok b →
        ((book_flight s uid fid pax).1.flightBookings.filter
            (fun fb => fb.bookingId == b.id)).length = 1
        ∧ (book_flight s uid fid pax).1.hotelBookings.filter
            (fun hb => hb.bookingId == b.id) = []
        ∧ (book_flight s uid fid pax).1.carBookings.filter
            (fun cb => cb.bookingId == b.id) = []
        ∧ b.status = BookingStatus.pending)
    ∧ (∀ rid ci co b, Inv s → (book_hotel s uid rid ci co).2 = Except.ok b →
        ((book_hotel s uid rid ci co).1.hotelBookings.filter
            (fun hb => hb.bookingId == b.id)).length = 1
        ∧ (book_hotel s uid rid ci co).1.flightBookings.filter
            (fun fb => fb.bookingId == b.id) = []
        ∧ (book_hotel s uid rid ci co).1.carBookings.filter
            (fun cb => cb.bookingId == b.id) = []
        ∧ b.status = BookingStatus.pending)
    ∧ (∀ cid pu dr b, Inv s → (book_car s uid cid pu dr).2 = Except.ok b →
        ((book_car s uid cid pu dr).1.carBookings.filter
            (fun cb => cb.bookingId == b.id)).length = 1
        ∧ (book_car s uid cid pu dr).1.flightBookings.filter
            (fun fb => fb.bookingId == b.id) = []
        ∧ (book_car s uid cid pu dr).1.hotelBookings.filter
            (fun hb => hb.bookingId == b.id) = []
        ∧ b.status = BookingStatus.pending) := by
  refine ⟨?_, ?_, ?_, ?_, ?_, ?_, ?_⟩
  · intro h1 h2 h3
    unfold clientCreateBooking clientBookRequest
    rw [h1, h2, h3]
  · intro fid hf
    unfold clientCreateBooking clientBookRequest
    rw [hf]
  · intro r h1 h2
    unfold clientCreateBooking clientBookRequest
    rw [h1, h2]
  · intro c h1 h2 h3
    unfold clientCreateBooking clientBookRequest
    rw [h1, h2, h3]
  · intro fid b hInv hok
    unfold book_flight
    have hrows := createBooking_rows s uid
      { flight := some { flightId := fid, date := 0 }, hotel := none, car := none }
      pax hInv hok
    refine ⟨?_, ?_, ?_, hrows.2.2.2.1⟩
    · rw [hrows.1]
      unfold flightRowsFor
      rfl
    · rw [hrows.2.1]
      rfl
    · rw [hrows.2.2.1]
      rfl
  · intro rid ci co b hInv hok
    unfold book_hotel
    have hrows := createBooking_rows s uid
      { flight := none, hotel := some { roomId := rid, checkIn := ci, checkOut := co },
        car := none } [] hInv hok
    refine ⟨?_, ?_, ?_, hrows.2.2.2.1⟩
    · rw [hrows.2.1]
      rfl
    · rw [hrows.1]
      rfl
    · rw [hrows.2.2.1]
      rfl
  · intro cid pu dr b hInv hok
    unfold book_car
    have hrows := createBooking_rows s uid
      { flight := none, hotel := none,
        car := some { carId := cid, pickup := pu, dropoff := dr } } [] hInv hok
    refine ⟨?_, ?_, ?_, hrows.2.2.2.1⟩
    · rw [hrows.2.2.1]
      rfl
    · rw [hrows.1]
      rfl
    · rw [hrows.2.1]
      rfl

theorem clientCreateBooking_single_kind_witness :
    clientCreateBooking c7store 1 (some 1) "economy" [c7pax]
        (some { roomId := 1, check_in := 1, check_out := 3, guests := 2 }) none
      = some (book_flight c7store 1 1 [c7pax])
    ∧ (book_flight c7store 1 1 [c7pax]).1.hotelBookings.filter
        (fun hb => hb.bookingId == 1) = [] := by
  have happ := clientCreateBooking_single_kind c7store 1 (some 1) "economy" [c7pax]
      (some { roomId := 1, check_in := 1, check_out := 3, guests := 2 }) none
  refine ⟨happ.2.1 1 rfl, ?_⟩
  have hown := happ.2.2.2.2.1 1
      { id := 1, userId := 1, status := BookingStatus.pending, total := 100,
        everConfirmed := false }
      (inv_init _ _ _) rfl
  exact hown.2.1

end Travel

